import Mathlib

/-!
Verification of the sqlplot-tools document processor against its
natural-language specification.

Strings from the C++ sources are modelled as `List Char`; a text document
(the `TextLines` line buffer) is a `List (List Char)`.  Machine `size_t`
indices become `Nat`; the `ssize_t`/`npos` conventions of the C++ string
functions are modelled with `Option Nat`.  Fallible code (functions that
reach `OUT_THROW`, which raises `std::runtime_error`) returns `Except`
values whose payload is the error kind.
-/

/-- Text of one line of a processed file (a C++ `std::string`). -/
abbrev Line := List Char

/-- Convert a Lean string literal to the `List Char` representation. -/
def strL (s : String) : Line := s.data

/-- Check for a blank character, as C `isblank` in the default locale:
space or horizontal tab. -/
def isblank (c : Char) : Bool := c == ' ' || c == '\t'

/-- Read `line[i]` with the C++11 `std::string::operator[]` convention that
reading at index `size()` yields the terminating null character. -/
def charAt (line : Line) (i : Nat) : Char := line.getD i (Char.ofNat 0)

/-- Index of the first character of `line` that is not blank; equals
`line.length` when every character is blank (the C++ scan loops stop there
because the terminating null is not blank). -/
def findNonBlank : Line → Nat
  | [] => 0
  | c :: cs => if isblank c then findNonBlank cs + 1 else 0

/-- Embedding of `trim` from `src/strtools.h`: removes the drop characters
(default a single space) from both ends of the string. -/
def trim (str : Line) (drop : List Char := [' ']) : Line :=
  (str.dropWhile (fun c => c ∈ drop)).reverse.dropWhile (fun c => c ∈ drop) |>.reverse

/-- Embedding of `is_prefix` from `src/strtools.h`: the match string is
located at the start of `str`. -/
def startsWith (str match_ : Line) : Bool :=
  decide (str.take match_.length = match_)

/-- Embedding of `is_suffix` from `src/strtools.h`: the match string is
located at the end of `str`. -/
def endsWith (str match_ : Line) : Bool :=
  decide (match_.length ≤ str.length) && decide (str.drop (str.length - match_.length) = match_)

/-- Embedding of `shorten` from `src/strtools.h`: if `str` is longer than
`width` characters, cut it to the first `width - 3` characters and append
three dots. -/
def shorten (str : Line) (width : Nat := 80) : Line :=
  if width < str.length then str.take (width - 3) ++ strL "..." else str

/-- Worker of `replaceAll` with explicit fuel (the fuel makes the
recursion structural so the kernel can evaluate it; `fuel ≥ str.length`
always holds at the call sites because every step consumes at least one
character). -/
def replaceAllAux (needle instead : Line) : Nat → Line → Line
  | _, [] => []
  | 0, s => s
  | fuel + 1, c :: cs =>
    if needle ≠ [] ∧ startsWith (c :: cs) needle then
      instead ++ replaceAllAux needle instead fuel ((c :: cs).drop needle.length)
    else
      c :: replaceAllAux needle instead fuel cs

/-- Embedding of `replace_all` from `src/strtools.h`: replace every
occurrence of `needle` in `str` by `instead`, scanning left to right and
resuming after the inserted text. -/
def replaceAll (str needle instead : Line) : Line :=
  replaceAllAux needle instead str.length str

/-- Embedding of `split` (by a separator character) from `src/strtools.h`
with no part limit: multiple consecutive separators yield empty parts, and
a trailing part is appended only when nonempty. -/
def splitSep (str : Line) (sep : Char) : List Line :=
  let rec go (pending : Line) : Line → List Line
    | [] => if pending.isEmpty then [] else [pending.reverse]
    | c :: cs => if c == sep then pending.reverse :: go [] cs else go (c :: pending) cs
  go [] str

/-- Worker of `splitGetline` with explicit fuel (the fuel makes the
recursion structural so the kernel can evaluate it; each step consumes at
least one character, so `fuel ≥ s.length` at entry suffices). -/
def splitGetlineAux : Nat → List Char → List Line
  | _, [] => []
  | 0, s => [s]
  | fuel + 1, s =>
    let first := s.takeWhile (fun c => c ≠ '\n')
    if first.length < s.length then
      first :: splitGetlineAux fuel (s.drop (first.length + 1))
    else
      [first]

/-- Splitting of a character stream into lines, with the semantics of the
C++ `while (std::getline(is, line))` loops in `src/textlines.h` and
`src/sp-process.cpp`: each line is the text up to (and not including) the
next newline; a final fragment without a terminating newline still yields a
line; an empty stream yields no lines. -/
def splitGetline (s : List Char) : List Line :=
  splitGetlineAux s.length s

/-- Writing of a line buffer back to a stream, as `TextLines::write_stream`
in `src/textlines.h`: every line is emitted followed by a newline. -/
def writeStream (lines : List Line) : List Char :=
  lines.foldr (fun l acc => l ++ '\n' :: acc) []

/-- Embedding of `TextLines::replace` (vector-content overload) from
`src/textlines.h`: erase the lines of the half-open range `[b, e)` and
insert `content` at position `b`. -/
def TextLines.replace (lines : List Line) (b e : Nat) (content : List Line) : List Line :=
  lines.take b ++ content ++ lines.drop e

/-- Embedding of the indenting `TextLines::replace` overload: every content
line is prefixed by `indent` spaces (the `indent == 0` case delegates to the
plain overload, which is the same as prefixing zero spaces). -/
def TextLines.replaceIndent (lines : List Line) (b e indent : Nat) (content : List Line) :
    List Line :=
  TextLines.replace lines b e (content.map (fun l => List.replicate indent ' ' ++ l))

/-- Embedding of the string-content `TextLines::replace` overload: the
content string is split into lines with `std::getline` and each line is
indented. -/
def TextLines.replaceText (lines : List Line) (b e indent : Nat) (content : List Char) :
    List Line :=
  TextLines.replace lines b e ((splitGetline content).map
    (fun l => List.replicate indent ' ' ++ l))

/-- C1/C10 kernel sanity example: replacing the middle line of a three-line
buffer. -/
example : TextLines.replace [strL "a", strL "b", strL "c"] 1 2 [strL "x", strL "y"] =
    [strL "a", strL "x", strL "y", strL "c"] := by decide

/-- C10: for every line buffer and every call `replace(begin, end, content)`
with `begin ≤ end ≤ size`, the new buffer is exactly the prefix before
`begin`, then the content, then the suffix from `end` on (so all lines
outside the replaced range keep their text and relative order), and the line
count changes by exactly `content.length - (end - begin)` (stated over ℤ
because the difference may be negative). -/
theorem TextLines.replace_length_and_frame (lines : List Line) (b e : Nat)
    (content : List Line) (h : b ≤ e ∧ e ≤ lines.length) :
    TextLines.replace lines b e content =
      lines.take b ++ content ++ lines.drop e ∧
    ((TextLines.replace lines b e content).length : ℤ) =
      (lines.length : ℤ) + content.length - (e - b) ∧
    (∀ i, i < b → (TextLines.replace lines b e content).getD i [] = lines.getD i []) ∧
    (∀ j, (TextLines.replace lines b e content).getD (b + content.length + j) [] =
      lines.getD (e + j) []) := by
  obtain ⟨hbe, hel⟩ := h
  refine ⟨rfl, ?_, ?_, ?_⟩
  · simp only [TextLines.replace, List.length_append, List.length_take, List.length_drop]
    have h1 : min b lines.length = b := by omega
    rw [h1]
    push_cast
    omega
  · intro i hi
    simp only [TextLines.replace, List.getD_eq_getElem?_getD, List.append_assoc]
    rw [List.getElem?_append_left (by simp only [List.length_take]; omega),
      List.getElem?_take_of_lt hi]
  · intro j
    simp only [TextLines.replace, List.getD_eq_getElem?_getD, List.append_assoc]
    rw [List.getElem?_append_right (by simp only [List.length_take]; omega)]
    rw [List.getElem?_append_right (by simp only [List.length_take]; omega)]
    rw [List.getElem?_drop]
    have hidx : e + (b + content.length + j - (List.take b lines).length - content.length) =
        e + j := by
      simp only [List.length_take]
      omega
    rw [hidx]

/-- C10 witness: a concrete replacement, `begin = 1`, `end = 3`, on a
four-line buffer with a two-line content. -/
theorem TextLines.replace_length_and_frame_witness :
    (1 ≤ 3 ∧ 3 ≤ 4) ∧
    TextLines.replace [strL "a", strL "b", strL "c", strL "d"] 1 3 [strL "x", strL "y"] =
      [strL "a", strL "x", strL "y", strL "d"] ∧
    ((TextLines.replace [strL "a", strL "b", strL "c", strL "d"] 1 3
      [strL "x", strL "y"]).length : ℤ) = 4 + 2 - (3 - 1) := by
  have h := TextLines.replace_length_and_frame
    [strL "a", strL "b", strL "c", strL "d"] 1 3 [strL "x", strL "y"] (by decide)
  exact ⟨by decide, by decide, by decide⟩

/-- Embedding of `TextLines::is_comment_line` from `src/textlines.h`: skip
leading blanks, then require `rep` copies of the comment character; returns
the index of the (first) comment character, or `none` where the C++ returns
`-1`.  Reading one past the end of the line yields the terminating null
character, exactly as `std::string::operator[]` at `size()`. -/
def isCommentLineIdx (cc : Char) (line : Line) (rep : Nat := 1) : Option Nat :=
  let i := findNonBlank line
  if (List.range rep).all (fun r => charAt line (i + r) == cc) then some i else none

/-- Decision of whether line `k` of the buffer is a comment line (the
`is_comment_line(...) >= 0` test of the scan loops). -/
def isCommentAt (cc : Char) (lines : List Line) (k : Nat) : Bool :=
  (isCommentLineIdx cc (lines.getD k []) 1).isSome

/-- Trimmed text after the comment character of line `k`, as built by
`TextLines::scan_for_comment` (`substr(is_comment_line(cln)+1)` then
`trim`). -/
def commentTextAt (cc : Char) (lines : List Line) (k : Nat) : Line :=
  trim ((lines.getD k []).drop (((isCommentLineIdx cc (lines.getD k []) 1).getD 0) + 1))

/-- Scan of a list of lines for the first comment line, returning its
relative index: the `while (cln < size() && is_comment_line(cln) < 0)`
loop of `TextLines::scan_for_comment`. -/
def findCommentRel (cc : Char) : List Line → Option Nat
  | [] => none
  | l :: ls =>
    if (isCommentLineIdx cc l 1).isSome then some 0
    else (findCommentRel cc ls).map (· + 1)

/-- Embedding of `TextLines::scan_for_comment` from `src/textlines.h`: scan
forward from `ln` to the first comment line; if none exists before the end
of the buffer, fail; otherwise succeed exactly when the trimmed text after
the comment character starts with `cpattern`. -/
def scanForComment (cc : Char) (lines : List Line) (ln : Nat) (cpattern : Line) : Option Nat :=
  match findCommentRel cc (lines.drop ln) with
  | none => none
  | some k =>
    let cln := ln + k
    if startsWith (commentTextAt cc lines cln) cpattern then some cln else none

/-- Marker line generated by `SpLatex::texttable` in `src/latex.cpp`:
`shorten("% END TEXTTABLE " + cmdline)`. -/
def texttableMarker (cmdline : Line) : Line :=
  shorten (strL "% END TEXTTABLE " ++ cmdline)

/-- Output block of `SpLatex::texttable`: the formatted text table followed
by the END marker line and a newline.  The formatted table string (result
of `format_texttable`) is taken as an argument. -/
def texttableBody (formatted : List Char) (cmdline : Line) : List Char :=
  formatted ++ texttableMarker cmdline ++ ['\n']

/-- Embedding of `SpLatex::texttable` from `src/latex.cpp` (the splice part,
with the formatted table string as argument): find a following
`% END TEXTTABLE` comment; replace the enclosing lines `[ln, eln]` when it
exists, else insert the block at `ln`. -/
def SpLatex.texttable (lines : List Line) (ln indent : Nat) (formatted : List Char)
    (cmdline : Line) : List Line :=
  let output := texttableBody formatted cmdline
  match scanForComment '%' lines ln (strL "END TEXTTABLE") with
  | none => TextLines.replaceText lines ln ln indent output
  | some eln => TextLines.replaceText lines ln (eln + 1) indent output

/-- Characterization of the first-comment-line scan: `findCommentRel`
returns exactly the least index of a comment line. -/
theorem findCommentRel_spec (cc : Char) (ls : List Line) (k : Nat) :
    findCommentRel cc ls = some k ↔
      (k < ls.length ∧ (isCommentLineIdx cc (ls.getD k []) 1).isSome = true ∧
        ∀ j, j < k → (isCommentLineIdx cc (ls.getD j []) 1).isSome = false) := by
  induction ls generalizing k with
  | nil => simp [findCommentRel]
  | cons l ls ih =>
    by_cases hc : (isCommentLineIdx cc l 1).isSome = true
    · simp only [findCommentRel, hc, if_true]
      constructor
      · rintro h
        cases h
        exact ⟨by simp, by simpa using hc, fun j hj => absurd hj (Nat.not_lt_zero j)⟩
      · rintro ⟨hk, hck, hmin⟩
        rcases Nat.eq_zero_or_pos k with hk0 | hkpos
        · simp [hk0]
        · exfalso
          have := hmin 0 hkpos
          simp only [List.getD_cons_zero] at this
          rw [this] at hc
          exact Bool.false_ne_true hc
    · simp only [findCommentRel, hc, if_false]
      constructor
      · intro h
        rcases Option.map_eq_some'.mp h with ⟨k', hk', rfl⟩
        rcases (ih k').mp hk' with ⟨h1, h2, h3⟩
        refine ⟨by simpa using h1, by simpa using h2, ?_⟩
        intro j hj
        cases j with
        | zero => simpa using (Bool.not_eq_true _).mp hc
        | succ j' =>
          have := h3 j' (by omega)
          simpa using this
      · rintro ⟨hk, hck, hmin⟩
        cases k with
        | zero =>
          exfalso
          simp only [List.getD_cons_zero] at hck
          rw [hck] at hc
          exact hc rfl
        | succ k' =>
          have : findCommentRel cc ls = some k' := by
            rw [ih k']
            refine ⟨by simpa using hk, by simpa using hck, ?_⟩
            intro j hj
            have := hmin (j + 1) (by omega)
            simpa using this
          simp [this]

/-- Absence form of the first-comment-line scan: `findCommentRel` returns
`none` exactly when no line of the list is a comment line. -/
theorem findCommentRel_none_spec (cc : Char) (ls : List Line) :
    findCommentRel cc ls = none ↔
      ∀ j, j < ls.length → (isCommentLineIdx cc (ls.getD j []) 1).isSome = false := by
  induction ls with
  | nil => simp [findCommentRel]
  | cons l ls ih =>
    by_cases hc : (isCommentLineIdx cc l 1).isSome = true
    · simp only [findCommentRel, hc, if_true]
      constructor
      · intro h
        exact absurd h (by simp)
      · intro h
        have := h 0 (by simp)
        simp only [List.getD_cons_zero] at this
        rw [this] at hc
        exact absurd hc (by simp)
    · simp only [findCommentRel]
      rw [if_neg hc]
      simp only [Option.map_eq_none']
      rw [ih]
      constructor
      · intro h j hj
        cases j with
        | zero => simpa using (Bool.not_eq_true _).mp hc
        | succ j' => simpa using h j' (by simpa using hj)
      · intro h j hj
        have := h (j + 1) (by simpa using hj)
        simpa using this

/-- Index translation for the scan: elements of the dropped suffix. -/
theorem getD_drop_eq (lines : List Line) (ln j : Nat) :
    (lines.drop ln).getD j [] = lines.getD (ln + j) [] := by
  simp [List.getD_eq_getElem?_getD, List.getElem?_drop]

/-- C3: for a TEXTTABLE directive processed at line `ln`, the processor
scans forward from `ln` to the first comment line.  If that first comment
line (at index `eln`) matches the END TEXTTABLE marker, the lines `ln`
through `eln` inclusive are replaced by the new block; otherwise — first
comment line does not match, or no comment line exists — the new block is
inserted at `ln` and no existing line is removed (the result keeps the whole
prefix before `ln` and the whole suffix from `ln` on). -/
theorem SpLatex.texttable_block_replacement (lines : List Line) (ln indent : Nat)
    (formatted : List Char) (cmdline : Line) :
    (∀ eln, scanForComment '%' lines ln (strL "END TEXTTABLE") = some eln →
      (ln ≤ eln ∧ eln < lines.length ∧
        isCommentAt '%' lines eln = true ∧
        (∀ k, ln ≤ k → k < eln → isCommentAt '%' lines k = false) ∧
        startsWith (commentTextAt '%' lines eln) (strL "END TEXTTABLE") = true) ∧
      SpLatex.texttable lines ln indent formatted cmdline =
        lines.take ln ++
          ((splitGetline (texttableBody formatted cmdline)).map
            (fun l => List.replicate indent ' ' ++ l)) ++ lines.drop (eln + 1)) ∧
    (scanForComment '%' lines ln (strL "END TEXTTABLE") = none →
      ((∀ k, ln ≤ k → k < lines.length → isCommentAt '%' lines k = false) ∨
        (∃ cln, ln ≤ cln ∧ cln < lines.length ∧ isCommentAt '%' lines cln = true ∧
          (∀ k, ln ≤ k → k < cln → isCommentAt '%' lines k = false) ∧
          startsWith (commentTextAt '%' lines cln) (strL "END TEXTTABLE") = false)) ∧
      SpLatex.texttable lines ln indent formatted cmdline =
        lines.take ln ++
          ((splitGetline (texttableBody formatted cmdline)).map
            (fun l => List.replicate indent ' ' ++ l)) ++ lines.drop ln) := by
  constructor
  · intro eln h
    unfold scanForComment at h
    cases hf : findCommentRel '%' (lines.drop ln) with
    | none => rw [hf] at h; exact absurd h (by simp)
    | some k =>
      rw [hf] at h
      simp only at h
      by_cases hs : startsWith (commentTextAt '%' lines (ln + k)) (strL "END TEXTTABLE") = true
      · rw [if_pos hs] at h
        have helk : eln = ln + k := by
          have := h
          simp only [Option.some.injEq] at this
          omega
        subst helk
        rcases (findCommentRel_spec '%' (lines.drop ln) k).mp hf with ⟨hk, hck, hmin⟩
        refine ⟨⟨by omega, ?_, ?_, ?_, hs⟩, ?_⟩
        · simp only [List.length_drop] at hk
          omega
        · unfold isCommentAt
          rw [← getD_drop_eq]
          exact hck
        · intro j hj1 hj2
          unfold isCommentAt
          have : j = ln + (j - ln) := by omega
          rw [this, ← getD_drop_eq]
          exact hmin (j - ln) (by omega)
        · unfold SpLatex.texttable
          rw [show scanForComment '%' lines ln (strL "END TEXTTABLE") = some (ln + k) from by
            unfold scanForComment
            rw [hf]
            simp only
            rw [if_pos hs]]
          rfl
      · rw [if_neg hs] at h
        exact absurd h (by simp)
  · intro h
    unfold scanForComment at h
    cases hf : findCommentRel '%' (lines.drop ln) with
    | none =>
      have hall := (findCommentRel_none_spec '%' (lines.drop ln)).mp hf
      refine ⟨Or.inl ?_, ?_⟩
      · intro j hj1 hj2
        unfold isCommentAt
        have : j = ln + (j - ln) := by omega
        rw [this, ← getD_drop_eq]
        apply hall
        simp only [List.length_drop]
        omega
      · unfold SpLatex.texttable
        rw [show scanForComment '%' lines ln (strL "END TEXTTABLE") = none from by
          unfold scanForComment
          rw [hf]]
        rfl
    | some k =>
      rw [hf] at h
      simp only at h
      by_cases hs : startsWith (commentTextAt '%' lines (ln + k)) (strL "END TEXTTABLE") = true
      · rw [if_pos hs] at h
        exact absurd h (by simp)
      · rcases (findCommentRel_spec '%' (lines.drop ln) k).mp hf with ⟨hk, hck, hmin⟩
        refine ⟨Or.inr ⟨ln + k, by omega, ?_, ?_, ?_, ?_⟩, ?_⟩
        · simp only [List.length_drop] at hk
          omega
        · unfold isCommentAt
          rw [← getD_drop_eq]
          exact hck
        · intro j hj1 hj2
          unfold isCommentAt
          have : j = ln + (j - ln) := by omega
          rw [this, ← getD_drop_eq]
          exact hmin (j - ln) (by omega)
        · exact (Bool.not_eq_true _).mp hs
        · unfold SpLatex.texttable
          rw [show scanForComment '%' lines ln (strL "END TEXTTABLE") = none from by
            unfold scanForComment
            rw [hf]
            simp only
            rw [if_neg hs]]
          rfl

/-- Modelled from the spec: the form the specification claims for the END
marker line — prefix, END, keyword, then the first 80 characters of the
directive's argument, with three dots appended when the argument was
truncated.  This definition follows the spec's words and is compared
against `texttableMarker`, which embeds the source. -/
def claimedTexttableMarker (cmdline : Line) : Line :=
  strL "% END TEXTTABLE " ++ cmdline.take 80 ++
    (if 80 < cmdline.length then strL "..." else [])

/-- C6 counterexample: for an 80-character argument the generated marker is
the whole line `"% END TEXTTABLE " + argument` truncated to 80 characters
(77 characters plus dots), not the prefix plus the first 80 characters of
the argument as the claim states. -/
theorem texttableMarker_differs_from_claim :
    texttableMarker (List.replicate 80 'a') ≠
      claimedTexttableMarker (List.replicate 80 'a') ∧
    (texttableMarker (List.replicate 80 'a')).length = 80 ∧
    (claimedTexttableMarker (List.replicate 80 'a')).length = 96 := by
  refine ⟨?_, by decide, by decide⟩
  intro h
  have := congrArg List.length h
  revert this
  decide

/-- C6 amended: the generated END marker line is the comment prefix, END,
the keyword and the argument joined into one line, and it is the whole
line that is truncated to 80 characters: when prefix plus argument exceed
80 characters, the marker is the first 77 characters of the joined line
(hence only the first 61 characters of the argument) followed by three
dots. -/
theorem texttableMarker_spec (cmdline : Line) :
    texttableMarker cmdline =
      if (strL "% END TEXTTABLE ").length + cmdline.length ≤ 80 then
        strL "% END TEXTTABLE " ++ cmdline
      else
        strL "% END TEXTTABLE " ++ cmdline.take 61 ++ strL "..." := by
  have h16 : (strL "% END TEXTTABLE ").length = 16 := by decide
  have hlen : (strL "% END TEXTTABLE " ++ cmdline).length = 16 + cmdline.length := by
    rw [List.length_append, h16]
  unfold texttableMarker shorten
  by_cases h : (strL "% END TEXTTABLE ").length + cmdline.length ≤ 80
  · rw [if_pos h]
    rw [if_neg (by rw [hlen]; rw [h16] at h; omega)]
  · rw [if_neg h]
    rw [if_pos (by rw [hlen]; rw [h16] at h; omega)]
    rw [List.take_append_eq_append_take]
    have e1 : (strL "% END TEXTTABLE ").take (80 - 3) = strL "% END TEXTTABLE " := by decide
    have e2 : 80 - 3 - (strL "% END TEXTTABLE ").length = 61 := by decide
    rw [e1, e2]

/-- Model of one SQLite query object together with its data cache
(`SQLiteQuery` in `src/sqlite.cpp` deriving from `SqlDataCache` in
`src/sql.h`).  The forward-only prepared-statement cursor is modelled by
the list of result rows not yet consumed by `step()`; a cell is `none`
when the engine reports NULL.  `m_complete` and `m_table` are the
`SqlDataCache` members. -/
structure SQLiteQueryModel where
  pending : List (List (Option Line))
  ncols : Nat
  m_complete : Bool
  m_table : List (List (Bool × Line))
deriving DecidableEq

/-- Row capture of the `SqlDataCache::read_complete` drain loop
(`src/sql.h`): for each column, a NULL cell is stored as
`(true, "")` and a non-NULL cell as `(false, text)`. -/
def cacheRow (ncols : Nat) (row : List (Option Line)) : List (Bool × Line) :=
  (List.range ncols).map (fun col =>
    match row.getD col none with
    | none => (true, [])
    | some t => (false, t))

/-- Embedding of `SqlDataCache::read_complete` from `src/sql.h`: if the
result is already cached, return immediately; otherwise drain the cursor
(`while (sql.step()) ...`), appending one captured row per remaining cursor
row, and mark the cache complete. -/
def SqlDataCache.readComplete (q : SQLiteQueryModel) : SQLiteQueryModel :=
  if q.m_complete then q
  else
    { pending := [], ncols := q.ncols, m_complete := true,
      m_table := q.m_table ++ q.pending.map (cacheRow q.ncols) }

/-- Embedding of `SQLiteQuery::num_rows` from `src/sqlite.cpp`: the row
count is the size of the cached table when the cache is complete; without
a cached result the function asserts (`assert(!"Row number not available
without cached result.")`), modelled as `none`. -/
def SQLiteQuery.numRows (q : SQLiteQueryModel) : Option Nat :=
  if q.m_complete then some q.m_table.length else none

/-- C9: for a result in cursor mode, `read_complete` promotes the result to
cached mode exactly once: the first call drains the whole cursor into the
in-memory cache and marks it complete; any call on an already-complete
result is a no-op, so `read_complete` is idempotent; and `num_rows` (on the
cursor-only SQLite engine) is unavailable before `read_complete` and
available after it. -/
theorem SqlDataCache.readComplete_once (q : SQLiteQueryModel)
    (h : q.m_complete = false) :
    (SqlDataCache.readComplete q).m_complete = true ∧
    (SqlDataCache.readComplete q).m_table =
      q.m_table ++ q.pending.map (cacheRow q.ncols) ∧
    (SqlDataCache.readComplete q).pending = [] ∧
    SqlDataCache.readComplete (SqlDataCache.readComplete q) =
      SqlDataCache.readComplete q ∧
    (∀ p : SQLiteQueryModel, p.m_complete = true → SqlDataCache.readComplete p = p) ∧
    SQLiteQuery.numRows q = none ∧
    SQLiteQuery.numRows (SqlDataCache.readComplete q) =
      some (q.m_table.length + q.pending.length) := by
  have hnc : ¬ q.m_complete = true := by rw [h]; exact Bool.false_ne_true
  constructor
  · unfold SqlDataCache.readComplete
    rw [if_neg hnc]
  constructor
  · unfold SqlDataCache.readComplete
    rw [if_neg hnc]
  constructor
  · unfold SqlDataCache.readComplete
    rw [if_neg hnc]
  constructor
  · unfold SqlDataCache.readComplete
    rw [if_neg hnc]
    simp
  constructor
  · intro p hp
    unfold SqlDataCache.readComplete
    rw [if_pos hp]
  constructor
  · unfold SQLiteQuery.numRows
    rw [if_neg hnc]
  · unfold SQLiteQuery.numRows SqlDataCache.readComplete
    rw [if_neg hnc]
    simp

/-- C9 witness: a concrete one-row cursor-mode result. -/
theorem SqlDataCache.readComplete_once_witness :
    (SQLiteQueryModel.mk [[some (strL "1")]] 1 false []).m_complete = false ∧
    SQLiteQuery.numRows (SQLiteQueryModel.mk [[some (strL "1")]] 1 false []) = none ∧
    SQLiteQuery.numRows
      (SqlDataCache.readComplete (SQLiteQueryModel.mk [[some (strL "1")]] 1 false [])) =
      some 1 ∧
    SqlDataCache.readComplete
      (SqlDataCache.readComplete (SQLiteQueryModel.mk [[some (strL "1")]] 1 false [])) =
      SqlDataCache.readComplete (SQLiteQueryModel.mk [[some (strL "1")]] 1 false []) := by
  have h := SqlDataCache.readComplete_once (SQLiteQueryModel.mk [[some (strL "1")]] 1 false [])
    rfl
  exact ⟨rfl, h.2.2.2.2.2.1, h.2.2.2.2.2.2, h.2.2.2.1⟩

/-- File-type detection of `sp_process_stream` in `src/sp-process.cpp`: an
explicit `-f` override wins; otherwise the filename suffix selects latex or
gnuplot; otherwise the type stays empty (which the dispatch below turns
into a fatal error). -/
def detectFiletype (soptFiletype filename : Line) : Line :=
  if soptFiletype.length ≠ 0 then soptFiletype
  else if endsWith filename (strL ".tex") || endsWith filename (strL ".latex") ||
      endsWith filename (strL ".ltx") then strL "latex"
  else if endsWith filename (strL ".gp") || endsWith filename (strL ".gpi") ||
      endsWith filename (strL ".gnu") || endsWith filename (strL ".plt") ||
      endsWith filename (strL ".plot") || endsWith filename (strL ".gnuplot") then
    strL "gnuplot"
  else []

/-- Embedding of `sp_process_stream` from `src/sp-process.cpp`: read the
stream into lines, detect the file type, and process the lines in place
with the matching processor (`sp_latex` / `sp_gnuplot`, passed here as
functions since the claim quantifies over the directive processors); an
unknown file type is a fatal error.  The rewritten buffer is only the
return value — this function performs no file write. -/
def spProcessStream (latexProc gnuplotProc : Line → List Line → Except Line (List Line))
    (soptFiletype filename : Line) (input : List Char) : Except Line (List Line) :=
  let lines := splitGetline input
  let filetype := detectFiletype soptFiletype filename
  if filetype = strL "latex" then latexProc filename lines
  else if filetype = strL "gnuplot" then gnuplotProc filename lines
  else Except.error (strL "unknown file type")

/-- Embedding of the per-file body of `sp_process` in `src/sp-process.cpp`
(the no-`-o` branch that overwrites the input file): the input file is
read, the whole document is processed in memory, and only if processing
returned without error is the file reopened for writing and the processed
buffer written back; a thrown error propagates to `main` before any write
happens, so the disk content stays what it was.  The second component is
the resulting on-disk byte content. -/
def spProcessFile (latexProc gnuplotProc : Line → List Line → Except Line (List Line))
    (soptFiletype filename : Line) (disk : List Char) :
    Except Line Unit × List Char :=
  match spProcessStream latexProc gnuplotProc soptFiletype filename disk with
  | Except.error e => (Except.error e, disk)
  | Except.ok out => (Except.ok (), writeStream out)

/-- C2: whenever processing of the document throws mid-document (any
directive processor reports an error), the on-disk file is left
byte-identical to its prior content — the rewritten buffer existed only in
memory — and the error is reported. -/
theorem spProcessFile_error_leaves_disk (latexProc gnuplotProc :
      Line → List Line → Except Line (List Line))
    (soptFiletype filename : Line) (disk : List Char) (e : Line)
    (h : spProcessStream latexProc gnuplotProc soptFiletype filename disk =
      Except.error e) :
    (spProcessFile latexProc gnuplotProc soptFiletype filename disk).2 = disk ∧
    (spProcessFile latexProc gnuplotProc soptFiletype filename disk).1 =
      Except.error e := by
  unfold spProcessFile
  rw [h]
  exact ⟨rfl, rfl⟩

/-- C2 witness: a latex processor that throws on a concrete document; the
disk bytes are untouched. -/
theorem spProcessFile_error_leaves_disk_witness :
    (spProcessFile (fun _ _ => Except.error (strL "query failed"))
      (fun _ _ => Except.error (strL "query failed")) []
      (strL "doc.tex") (strL "line one\nline two\n")).2 =
      strL "line one\nline two\n" := by
  exact (spProcessFile_error_leaves_disk
    (fun _ _ => Except.error (strL "query failed"))
    (fun _ _ => Except.error (strL "query failed")) []
    (strL "doc.tex") (strL "line one\nline two\n") (strL "query failed")
    rfl).1

/-- Parameters of one `SpLatex::multiplot` invocation (`src/latex.cpp`),
after argument parsing and column lookup: the group field names `gf` and
their column indices `gc`, the `x`/`y` column indices, the optional
`xerr`/`yerr` columns, the `|title` / `|ptitle` modifier flags with the
title column, and the two string helpers `escape_latex` (`esc`) and
`str_reduce` (`red`), which are declared by the repository outside the
given sources and therefore enter the model as function parameters. -/
structure MpParams where
  esc : Line → Line
  red : Line → Line
  gf : List Line
  gc : List Nat
  cx : Nat
  cy : Nat
  xerr : Bool
  yerr : Bool
  cxe : Nat
  cye : Nat
  titleMark : Bool
  ptitleMark : Bool
  ctitle : Nat

/-- Text of a result cell as `sql->text(col)` yields it to `multiplot`:
NULL cells read as the empty string. -/
def cellText (row : List (Option Line)) (col : Nat) : Line :=
  (row.getD col none).getD []

/-- Tuple of group-column values of one row (`rowgroup` in the source). -/
def tupleOf (gc : List Nat) (row : List (Option Line)) : List Line :=
  gc.map (fun c => cellText row c)

/-- Legend string built for a new group when no title modifier is set:
`groupfields[i]=rowgroup[i]` joined with commas, both sides escaped
(`escape_latex`). -/
def legendJoinAux (esc : Line → Line) (gf : List Line) (i : Nat) : List Line → Line
  | [] => []
  | g :: gs =>
    (if i = 0 then [] else [',']) ++ esc (gf.getD i []) ++ ['='] ++ esc g ++
      legendJoinAux esc gf (i + 1) gs

/-- Legend string of a group tuple (the `os <<` loop in the source). -/
def legendJoin (esc : Line → Line) (gf : List Line) (t : List Line) : Line :=
  legendJoinAux esc gf 0 t

/-- Coordinate text appended for one processed row:
`" (x,y)"`, plus `" +- (xe,ye)"` when an error column exists; values go
through `str_reduce` (`red`). -/
def coordText (p : MpParams) (row : List (Option Line)) : Line :=
  strL " (" ++ p.red (cellText row p.cx) ++ strL "," ++ p.red (cellText row p.cy) ++
    strL ")" ++
    (if p.xerr || p.yerr then
      strL " +- (" ++ (if p.xerr then p.red (cellText row p.cxe) else strL "0") ++
        strL "," ++ (if p.yerr then p.red (cellText row p.cye) else strL "0") ++ strL ")"
    else [])

/-- Accumulation state of the `while (sql->step())` loop of
`SpLatex::multiplot`: the group tuple of the last processed row, the
coordinate text of the currently open group, and the finished coordinate
and legend lists. -/
structure MpAcc where
  lastgroup : List Line
  coord : Line
  coordlist : List Line
  legendlist : List Line
deriving DecidableEq

/-- One iteration of the `SpLatex::multiplot` accumulation loop
(`src/latex.cpp` lines 280–335) on the row with raw index `idx`: rows with
NULL `x` or `y` are skipped (a warning is printed and nothing changes); a
new group starts when `idx == 0` or the group tuple differs from
`lastgroup`, in which case the open coordinate text is pushed (only when
`idx != 0`) and a legend entry is appended; the row's coordinates are then
appended to the open group. -/
def mpRow (p : MpParams) (acc : MpAcc) (idx : Nat) (row : List (Option Line)) : MpAcc :=
  if (row.getD p.cx none).isNone then acc
  else if (row.getD p.cy none).isNone then acc
  else if idx = 0 ∨ acc.lastgroup ≠ tupleOf p.gc row then
    MpAcc.mk (tupleOf p.gc row)
      ((if idx ≠ 0 then ([] : Line) else acc.coord) ++ coordText p row)
      (if idx ≠ 0 then acc.coordlist ++ [acc.coord] else acc.coordlist)
      (acc.legendlist ++
        [if p.titleMark then p.esc (cellText row p.ctitle)
         else if p.ptitleMark then cellText row p.ctitle
         else legendJoin p.esc p.gf (tupleOf p.gc row)])
  else
    MpAcc.mk acc.lastgroup (acc.coord ++ coordText p row) acc.coordlist acc.legendlist

/-- The full accumulation loop over the result rows, rows numbered from 0
(`sql->current_row()` of the first row). -/
def mpRows (p : MpParams) : MpAcc → Nat → List (List (Option Line)) → MpAcc
  | acc, _, [] => acc
  | acc, idx, r :: rs => mpRows p (mpRow p acc idx r) (idx + 1) rs

/-- Result of the accumulation block of `SpLatex::multiplot`: the final
`coordlist` (with the last open group appended when nonempty) and
`legendlist`. -/
def multiplotAccum (p : MpParams) (rows : List (List (Option Line))) :
    List Line × List Line :=
  let acc := mpRows p (MpAcc.mk [] [] [] []) 0 rows
  (if acc.coord.length ≠ 0 then acc.coordlist ++ [acc.coord] else acc.coordlist,
    acc.legendlist)

/-- The `assert(coordlist.size() == legendlist.size())` after the loop
(`src/latex.cpp` line 343), modelled as a fallible check: an assertion
failure aborts the run. -/
def multiplotCheck (p : MpParams) (rows : List (List (Option Line))) :
    Except Line (List Line × List Line) :=
  let r := multiplotAccum p rows
  if r.1.length = r.2.length then Except.ok r
  else Except.error (strL "assertion failed: coordlist.size() == legendlist.size()")

/-- Specification-side description of contiguous-run detection: the first
element of every maximal run of equal consecutive tuples. -/
def runStartsAux (prev : List Line) : List (List Line) → List (List Line)
  | [] => []
  | t :: ts => if t = prev then runStartsAux t ts else t :: runStartsAux t ts

/-- Heads of the maximal runs of equal consecutive elements. -/
def runStarts : List (List Line) → List (List Line)
  | [] => []
  | t :: ts => t :: runStartsAux t ts

/-- Parameters of the MULTIPLOT example of the spec: one group column `g`
at index 0, `x` at 1, `y` at 2, no error columns, no title modifier;
`escape_latex` and `str_reduce` are the identity on the plain alphanumeric
values involved. -/
def mpExampleParams : MpParams :=
  MpParams.mk (fun s => s) (fun s => s) [strL "g"] [0] 1 2 false false 0 0 false false 0

/-- Result rows `(g=A,x=1,y=2), (g=A,x=2,y=3), (g=B,x=1,y=9)` in returned
order. -/
def mpExampleRows : List (List (Option Line)) :=
  [[some (strL "A"), some (strL "1"), some (strL "2")],
   [some (strL "A"), some (strL "2"), some (strL "3")],
   [some (strL "B"), some (strL "1"), some (strL "9")]]

/-- Result rows whose first row has NULL `x` followed by a valid row of the
same group. -/
def mpNullFirstRows : List (List (Option Line)) :=
  [[some (strL "A"), none, some (strL "2")],
   [some (strL "A"), some (strL "1"), some (strL "2")]]

/-- Result rows with a NULL-`y` row strictly between two valid rows of one
group. -/
def mpNullMiddleRows : List (List (Option Line)) :=
  [[some (strL "A"), some (strL "1"), some (strL "2")],
   [some (strL "A"), some (strL "5"), none],
   [some (strL "A"), some (strL "2"), some (strL "3")]]

example : multiplotAccum mpExampleParams mpExampleRows =
    ([strL " (1,2) (2,3)", strL " (1,9)"], [strL "g=A", strL "g=B"]) := by decide

example : multiplotAccum mpExampleParams mpNullFirstRows =
    ([[], strL " (1,2)"], [strL "g=A"]) := by decide

/-- Coordinate text of a processed row is never empty (it starts with
`" ("`). -/
theorem coordText_ne_nil (p : MpParams) (row : List (Option Line)) :
    coordText p row ≠ [] := by
  unfold coordText
  intro h
  have hl := congrArg List.length h
  have h2 : (strL " (").length = 2 := by decide
  simp only [List.length_append, List.length_nil] at hl
  omega


/-- Loop invariant of the multiplot accumulation: once a first row has been
accumulated (`idx ≠ 0`, open coordinate text nonempty), processing further
rows without NULL `x`/`y` appends one legend entry and one closed
coordinate group per contiguous-run boundary (tuple differing from the
immediately preceding row's tuple), and keeps the open coordinate text
nonempty. -/
theorem mpRows_run_invariant (p : MpParams)
    (hm1 : p.titleMark = false) (hm2 : p.ptitleMark = false)
    (rs : List (List (Option Line))) :
    ∀ acc idx, idx ≠ 0 → acc.coord ≠ [] →
    (∀ r ∈ rs, (r.getD p.cx none).isNone = false ∧ (r.getD p.cy none).isNone = false) →
    (mpRows p acc idx rs).legendlist =
      acc.legendlist ++
        (runStartsAux acc.lastgroup (rs.map (tupleOf p.gc))).map (legendJoin p.esc p.gf) ∧
    (mpRows p acc idx rs).coordlist.length =
      acc.coordlist.length + (runStartsAux acc.lastgroup (rs.map (tupleOf p.gc))).length ∧
    (mpRows p acc idx rs).coord ≠ [] := by
  induction rs with
  | nil =>
    intro acc idx hidx hcoord hnn
    simp [mpRows, runStartsAux]
    exact hcoord
  | cons r rs ih =>
    intro acc idx hidx hcoord hnn
    obtain ⟨hx, hy⟩ := hnn r (List.mem_cons_self r rs)
    have hnn' : ∀ q ∈ rs, (q.getD p.cx none).isNone = false ∧
        (q.getD p.cy none).isNone = false :=
      fun q hq => hnn q (List.mem_cons_of_mem r hq)
    by_cases hg : acc.lastgroup = tupleOf p.gc r
    · have hrow : mpRow p acc idx r =
          MpAcc.mk acc.lastgroup (acc.coord ++ coordText p r) acc.coordlist
            acc.legendlist := by
        unfold mpRow
        rw [if_neg (by rw [hx]; exact Bool.false_ne_true),
          if_neg (by rw [hy]; exact Bool.false_ne_true),
          if_neg (by rw [not_or, not_not]; exact ⟨hidx, hg⟩)]
      have hrs : runStartsAux acc.lastgroup ((r :: rs).map (tupleOf p.gc)) =
          runStartsAux acc.lastgroup (rs.map (tupleOf p.gc)) := by
        simp only [List.map_cons, runStartsAux]
        rw [if_pos hg.symm, ← hg]
      simp only [mpRows, hrow, hrs]
      have := ih (MpAcc.mk acc.lastgroup (acc.coord ++ coordText p r) acc.coordlist
          acc.legendlist) (idx + 1) (by omega)
        (by
          intro hnil
          exact coordText_ne_nil p r (List.append_eq_nil.mp hnil).2) hnn'
      simpa using this
    · have hrow : mpRow p acc idx r =
          MpAcc.mk (tupleOf p.gc r) (coordText p r)
            (acc.coordlist ++ [acc.coord])
            (acc.legendlist ++ [legendJoin p.esc p.gf (tupleOf p.gc r)]) := by
        unfold mpRow
        rw [if_neg (by rw [hx]; exact Bool.false_ne_true),
          if_neg (by rw [hy]; exact Bool.false_ne_true),
          if_pos (Or.inr hg), hm1, hm2,
          if_pos hidx, if_pos hidx,
          if_neg (Bool.false_ne_true), if_neg (Bool.false_ne_true)]
        rfl
      have hrs : runStartsAux acc.lastgroup ((r :: rs).map (tupleOf p.gc)) =
          tupleOf p.gc r :: runStartsAux (tupleOf p.gc r) (rs.map (tupleOf p.gc)) := by
        simp only [List.map_cons, runStartsAux]
        rw [if_neg (fun he => hg he.symm)]
      simp only [mpRows, hrow, hrs]
      have := ih (MpAcc.mk (tupleOf p.gc r) (coordText p r)
          (acc.coordlist ++ [acc.coord])
          (acc.legendlist ++ [legendJoin p.esc p.gf (tupleOf p.gc r)]))
        (idx + 1) (by omega) (coordText_ne_nil p r) hnn'
      obtain ⟨h1, h2, h3⟩ := this
      refine ⟨?_, ?_, h3⟩
      · rw [h1]
        simp [List.append_assoc]
      · rw [h2]
        simp only [List.length_append, List.length_cons, List.length_map,
          List.length_nil]
        omega

/-- C4: MULTIPLOT grouping is contiguous-run detection over the result rows
in returned order — a new coordinate group, with its legend entry, starts
exactly at a row whose tuple of group-column values differs from the
immediately preceding row's tuple (the first row always starts a group):
the legend list is the per-run-head legend text of the maximal runs of
equal consecutive tuples, the coordinate list has the same number of
groups, and in particular the rows `(g=A,x=1,y=2),(g=A,x=2,y=3),(g=B,x=1,y=9)`
produce exactly two groups with legends `g=A` and `g=B`, not three. -/
theorem multiplot_contiguous_grouping (p : MpParams) (rows : List (List (Option Line)))
    (hm1 : p.titleMark = false) (hm2 : p.ptitleMark = false)
    (hnn : ∀ r ∈ rows,
      (r.getD p.cx none).isNone = false ∧ (r.getD p.cy none).isNone = false) :
    (multiplotAccum p rows).2 =
      (runStarts (rows.map (tupleOf p.gc))).map (legendJoin p.esc p.gf) ∧
    (multiplotAccum p rows).1.length = (multiplotAccum p rows).2.length ∧
    multiplotAccum mpExampleParams mpExampleRows =
      ([strL " (1,2) (2,3)", strL " (1,9)"], [strL "g=A", strL "g=B"]) := by
  cases rows with
  | nil =>
    refine ⟨?_, ?_, by decide⟩
    · simp [multiplotAccum, mpRows, runStarts]
    · simp [multiplotAccum, mpRows]
  | cons r rs =>
    obtain ⟨hx, hy⟩ := hnn r (List.mem_cons_self r rs)
    have hrow0 : mpRow p (MpAcc.mk [] [] [] []) 0 r =
        MpAcc.mk (tupleOf p.gc r) (coordText p r) []
          [legendJoin p.esc p.gf (tupleOf p.gc r)] := by
      unfold mpRow
      rw [if_neg (by rw [hx]; exact Bool.false_ne_true),
        if_neg (by rw [hy]; exact Bool.false_ne_true),
        if_pos (Or.inl rfl), hm1, hm2]
      simp
    have hinv := mpRows_run_invariant p hm1 hm2 rs
      (MpAcc.mk (tupleOf p.gc r) (coordText p r) []
        [legendJoin p.esc p.gf (tupleOf p.gc r)]) 1 one_ne_zero
      (coordText_ne_nil p r) (fun q hq => hnn q (List.mem_cons_of_mem r hq))
    obtain ⟨h1, h2, h3⟩ := hinv
    have hne : ((mpRows p (MpAcc.mk (tupleOf p.gc r) (coordText p r) []
        [legendJoin p.esc p.gf (tupleOf p.gc r)]) 1 rs).coord).length ≠ 0 := by
      intro hzero
      exact h3 (List.length_eq_zero.mp hzero)
    refine ⟨?_, ?_, by decide⟩
    · show (multiplotAccum p (r :: rs)).2 = _
      unfold multiplotAccum
      simp only [mpRows, hrow0]
      rw [h1]
      simp [runStarts]
    · show (multiplotAccum p (r :: rs)).1.length = (multiplotAccum p (r :: rs)).2.length
      unfold multiplotAccum
      simp only [mpRows, hrow0]
      rw [if_pos hne]
      simp only [List.length_append, List.length_cons, List.length_nil]
      rw [h1, h2]
      simp

/-- C4 witness: the claim's hypotheses discharged at the concrete
three-row example. -/
theorem multiplot_contiguous_grouping_witness :
    mpExampleParams.titleMark = false ∧
    (multiplotAccum mpExampleParams mpExampleRows).2 =
      (runStarts (mpExampleRows.map (tupleOf mpExampleParams.gc))).map
        (legendJoin mpExampleParams.esc mpExampleParams.gf) ∧
    (multiplotAccum mpExampleParams mpExampleRows).1.length =
      (multiplotAccum mpExampleParams mpExampleRows).2.length := by
  have h := multiplot_contiguous_grouping mpExampleParams mpExampleRows rfl rfl
    (by decide)
  exact ⟨rfl, h.1, h.2.1⟩

/-- C5: evaluation of the accumulation loop at a result whose row 0 has a
NULL `x` and whose row 1 is valid: the loop pushes the still-empty open
coordinate text as a group without pushing a legend entry, so the
coordinate list has 2 entries while the legend list has 1, and the
`assert(coordlist.size() == legendlist.size())` after the loop fails. -/
theorem multiplot_sizes_mismatch_on_null_first_row :
    (multiplotAccum mpExampleParams mpNullFirstRows).1.length = 2 ∧
    (multiplotAccum mpExampleParams mpNullFirstRows).2.length = 1 ∧
    (multiplotAccum mpExampleParams mpNullFirstRows).1 = [[], strL " (1,2)"] ∧
    multiplotCheck mpExampleParams mpNullFirstRows =
      Except.error (strL "assertion failed: coordlist.size() == legendlist.size()") := by
  refine ⟨by decide, by decide, by decide, rfl⟩

/-- C8: a NULL-`x`/`y` row strictly inside a result is skipped (it
contributes no coordinate — the two valid rows alone make up the group)
and processing continues to a successful result; but the same skip logic
on a NULL row at index 0 leaves an empty open group that later fails the
coordinate/legend assertion, so such a row can abort the run, contradicting
the claim that it never does. -/
theorem multiplot_null_row_skipped_but_can_abort :
    multiplotAccum mpExampleParams mpNullMiddleRows =
      ([strL " (1,2) (2,3)"], [strL "g=A"]) ∧
    multiplotCheck mpExampleParams mpNullMiddleRows =
      Except.ok ([strL " (1,2) (2,3)"], [strL "g=A"]) ∧
    multiplotCheck mpExampleParams mpNullFirstRows =
      Except.error (strL "assertion failed: coordlist.size() == legendlist.size()") := by
  refine ⟨by decide, rfl, rfl⟩


/-- Exact decimal number: `(-1)^neg * mant / 10^scale`.  The cell values
the reformat engine reads are decimal literals, and every arithmetic step
of the digits/precision formatting keeps such values exact, so the C++
`double` is modelled by this exact decimal representation (the claims only
evaluate it on values where the decimal and the binary double agree). -/
structure DecValue where
  neg : Bool
  mant : Nat
  scale : Nat
deriving DecidableEq

/-- Modelled from the spec: numeric cell detection.  The repository's
`from_str<double>` helper (declared in repository code not under the given
sources) parses a cell with an `istringstream`; following the spec's
"every cell that parses as a double", this model accepts plain decimal
literals — optional sign, digits, optional fraction — consumed in full. -/
def parseDouble (s : Line) : Option DecValue :=
  let digitsToNat : List Char → Nat :=
    fun ds => ds.foldl (fun a c => a * 10 + (c.toNat - 48)) 0
  let core : Bool → Line → Option DecValue := fun neg r =>
    let ip := r.takeWhile (fun c => c.isDigit)
    let r2 := r.drop ip.length
    match r2 with
    | [] =>
      if ip.isEmpty then none
      else some (DecValue.mk neg (digitsToNat ip) 0)
    | '.' :: fr =>
      let fp := fr.takeWhile (fun c => c.isDigit)
      let r3 := fr.drop fp.length
      if r3.isEmpty = false then none
      else if ip.isEmpty && fp.isEmpty then none
      else some (DecValue.mk neg (digitsToNat (ip ++ fp)) fp.length)
    | _ => none
  match s with
  | '-' :: r => core true r
  | '+' :: r => core false r
  | r => core false r

/-- Comparison of a decimal value against a natural threshold (the
`v < 1`, `v < 10`, ... branch tests of `Reformat::format`). -/
def DecValue.ltNat (v : DecValue) (k : Nat) : Bool :=
  if v.neg && v.mant != 0 then true else v.mant < k * 10 ^ v.scale

/-- Magnitude of a decimal value rounded to `p` decimal places, ties away
from zero (the decimal counterpart of the C `round` and of `printf`-style
fixed rendering; exact when the value has at most `p` decimals). -/
def DecValue.roundMag (v : DecValue) (p : Nat) : Nat :=
  if v.scale ≤ p then v.mant * 10 ^ (p - v.scale)
  else
    let d := 10 ^ (v.scale - p)
    v.mant / d + (if d ≤ 2 * (v.mant % d) then 1 else 0)

/-- Floor of a decimal value (the `floor` rounding mode). -/
def DecValue.floorD (v : DecValue) : DecValue :=
  if v.neg then DecValue.mk true ((v.mant + 10 ^ v.scale - 1) / 10 ^ v.scale) 0
  else DecValue.mk false (v.mant / 10 ^ v.scale) 0

/-- Ceiling of a decimal value (the `ceil` rounding mode). -/
def DecValue.ceilD (v : DecValue) : DecValue :=
  if v.neg then DecValue.mk true (v.mant / 10 ^ v.scale) 0
  else DecValue.mk false ((v.mant + 10 ^ v.scale - 1) / 10 ^ v.scale) 0

/-- The `round=N` mode: `v = round(v * pow(10, N)) / pow(10, N)` with the C
`round` (half away from zero), for a possibly negative `N`. -/
def DecValue.roundAt (v : DecValue) (d : Int) : DecValue :=
  if 0 ≤ d then DecValue.mk v.neg (DecValue.roundMag v d.toNat) d.toNat
  else
    DecValue.mk v.neg
      (DecValue.roundMag (DecValue.mk v.neg v.mant (v.scale + (-d).toNat)) 0 *
        10 ^ (-d).toNat) 0

/-- Rounding mode of a cell-level format (`Reformat::Cell` in
`src/reformat.h`; `RD_DIGITS` of the C++ enum is never assigned and is
omitted). -/
inductive RoundMode
  | RD_UNDEF
  | RD_FLOOR
  | RD_CEIL
  | RD_ROUND
deriving DecidableEq

/-- Min/max highlighting style of a row/column-level format
(`Reformat::Line` in `src/reformat.h`). -/
inductive MinMaxFormat
  | MF_UNDEF
  | MF_NONE
  | MF_BOLD
  | MF_EMPH
deriving DecidableEq

/-- Merged cell- and row/column-level format record (`Reformat::Cell` plus
`Reformat::Line` of `src/reformat.h`): rounding mode and digit count,
precision, width, significant-digits mode and grouping separator, and the
min/max highlight styles with the recorded extremal cell texts.  Sentinels
are as in the C++ constructors: `-1` for the numeric fields, empty strings
and `MF_UNDEF`/`RD_UNDEF` otherwise. -/
structure LineFmt where
  m_round : RoundMode
  m_round_digits : Int
  m_reformat_precision : Int
  m_reformat_width : Int
  m_reformat_digits : Int
  m_grouping : Line
  m_min_format : MinMaxFormat
  m_max_format : MinMaxFormat
  m_min_text : Line
  m_max_text : Line
deriving DecidableEq

/-- Default-constructed format record, all fields sentinel. -/
def defaultLineFmt : LineFmt :=
  LineFmt.mk RoundMode.RD_UNDEF (-1) (-1) (-1) (-1) [] MinMaxFormat.MF_UNDEF
    MinMaxFormat.MF_UNDEF [] []

/-- Embedding of `Reformat::Cell::apply` from `src/reformat.cpp`: merge the
fields of `c` that are explicitly set (non-sentinel) into `self`. -/
def LineFmt.applyCell (self c : LineFmt) : LineFmt :=
  let s1 := if c.m_round ≠ RoundMode.RD_UNDEF then
    { self with m_round := c.m_round, m_round_digits := c.m_round_digits } else self
  let s2 := if c.m_reformat_precision ≥ 0 then
    { s1 with m_reformat_precision := c.m_reformat_precision } else s1
  let s3 := if c.m_reformat_width ≥ 0 then
    { s2 with m_reformat_width := c.m_reformat_width } else s2
  let s4 := if c.m_reformat_digits ≥ 0 then
    { s3 with m_reformat_digits := c.m_reformat_digits } else s3
  if c.m_grouping.length ≠ 0 then { s4 with m_grouping := c.m_grouping } else s4

/-- Embedding of `Reformat::Line::apply` from `src/reformat.cpp`: merge the
min/max fields that are set, then the cell-level fields. -/
def LineFmt.applyLine (self c : LineFmt) : LineFmt :=
  let s1 := if c.m_min_format ≠ MinMaxFormat.MF_UNDEF then
    { self with m_min_format := c.m_min_format, m_min_text := c.m_min_text } else self
  let s2 := if c.m_max_format ≠ MinMaxFormat.MF_UNDEF then
    { s1 with m_max_format := c.m_max_format, m_max_text := c.m_max_text } else s1
  LineFmt.applyCell s2 c

/-- Format state of one `Reformat` object (`src/reformat.h`): the sparse
per-row and per-column override maps and the default format. -/
structure ReformatState where
  m_rowfmt : List (Nat × LineFmt)
  m_colfmt : List (Nat × LineFmt)
  m_fmt : LineFmt

/-- Lookup in a sparse row/column format map (`std::map::find`). -/
def lookupFmt (m : List (Nat × LineFmt)) (k : Nat) : Option LineFmt :=
  (m.find? (fun e => e.1 == k)).map (fun e => e.2)

/-- Thousands grouping of an integer digit string: a comma before every
group of three digits counted from the right, as the `CommaGrouping`
locale (`do_grouping() == "\03"`) renders the integral part. -/
def groupThousands (ds : List Char) : Line :=
  let rec aux : List Char → Nat → List Char
    | [], _ => []
    | c :: cs, k =>
      if k ≠ 0 ∧ k % 3 = 0 then ',' :: c :: aux cs (k + 1) else c :: aux cs (k + 1)
  (aux ds.reverse 0).reverse

/-- Fixed-point rendering of a decimal value with `prec` decimals, comma
thousands grouping and space padding to `width`, as an `ostringstream`
imbued with the `CommaGrouping` locale renders `std::fixed` output. -/
def fixedDec (v : DecValue) (prec : Nat) (width : Int) : Line :=
  let n := DecValue.roundMag v prec
  let ip := n / 10 ^ prec
  let fp := n % 10 ^ prec
  let ipds := Nat.toDigits 10 ip
  let fpds := Nat.toDigits 10 fp
  let s := (if v.neg then ['-'] else []) ++ groupThousands ipds ++
    (if prec = 0 then [] else
      '.' :: (List.replicate (prec - fpds.length) '0' ++ fpds))
  if width ≤ (s.length : Int) then s
  else List.replicate (width - (s.length : Int)).toNat ' ' ++ s

/-- Precision selected by the `digits=N` branches of `Reformat::format`
(`src/reformat.cpp` lines 655–705): for each supported N the precision
drops as the value passes 1, 10, 100 (and 1000 for N = 4); any other N is
the fatal error `"Error, currently only digits={2,3,4} is implemented."`. -/
def digitsPrecision (digits : Int) (v : DecValue) : Except Line Nat :=
  if digits = 2 then
    Except.ok (if v.ltNat 1 then 2 else if v.ltNat 10 then 1 else 0)
  else if digits = 3 then
    Except.ok (if v.ltNat 1 then 3 else if v.ltNat 10 then 2
      else if v.ltNat 100 then 1 else 0)
  else if digits = 4 then
    Except.ok (if v.ltNat 1 then 4 else if v.ltNat 10 then 3
      else if v.ltNat 100 then 2 else if v.ltNat 1000 then 1 else 0)
  else
    Except.error (strL "Error, currently only digits=\x7b2,3,4\x7d is implemented.")

/-- Embedding of `Reformat::format` from `src/reformat.cpp`: empty or
non-numeric text is returned unchanged; otherwise the effective format is
the default overridden by the row's and then the column's entry, rounding
is applied, the number is re-rendered when precision, width, digits or
grouping is set (with the stream's default precision 6 when only width or
grouping is set), commas are substituted by the configured grouping text,
and the result is wrapped in a highlight macro when the original text
equals the recorded extremal text. -/
def Reformat.format (st : ReformatState) (row col : Nat) (in_text : Line) :
    Except Line Line :=
  if in_text.length = 0 then Except.ok in_text
  else
    match parseDouble in_text with
    | none => Except.ok in_text
    | some v0 =>
      let fmtR : LineFmt := match lookupFmt st.m_rowfmt row with
        | some rf => LineFmt.applyLine st.m_fmt rf
        | none => st.m_fmt
      let fmt : LineFmt := match lookupFmt st.m_colfmt col with
        | some cf => LineFmt.applyLine fmtR cf
        | none => fmtR
      let v : DecValue :=
        if fmt.m_round = RoundMode.RD_FLOOR then DecValue.floorD v0
        else if fmt.m_round = RoundMode.RD_CEIL then DecValue.ceilD v0
        else if fmt.m_round = RoundMode.RD_ROUND then
          DecValue.roundAt v0 fmt.m_round_digits
        else v0
      let prec0 : ℤ :=
        if fmt.m_round = RoundMode.RD_FLOOR ∨ fmt.m_round = RoundMode.RD_CEIL then
          (if fmt.m_reformat_precision < 0 then 0 else fmt.m_reformat_precision)
        else if fmt.m_round = RoundMode.RD_ROUND then
          (if fmt.m_reformat_precision < 0 then max 0 fmt.m_round_digits
           else fmt.m_reformat_precision)
        else fmt.m_reformat_precision
      let rendered : Except Line Line :=
        if prec0 ≥ 0 ∨ fmt.m_reformat_width ≥ 0 ∨ fmt.m_reformat_digits ≥ 0 ∨
            fmt.m_grouping.length ≠ 0 then
          if fmt.m_reformat_digits ≥ 0 then
            match digitsPrecision fmt.m_reformat_digits v with
            | Except.error e => Except.error e
            | Except.ok p => Except.ok (fixedDec v p (-1))
          else
            Except.ok (fixedDec v (if prec0 ≥ 0 then prec0.toNat else 6)
              fmt.m_reformat_width)
        else Except.ok in_text
      match rendered with
      | Except.error e => Except.error e
      | Except.ok t0 =>
        let t1 := replaceAll t0 [','] fmt.m_grouping
        Except.ok
          (if in_text = fmt.m_min_text then
            (if fmt.m_min_format = MinMaxFormat.MF_BOLD then
              strL "\\textbf\x7b" ++ t1 ++ strL "\x7d"
            else if fmt.m_min_format = MinMaxFormat.MF_EMPH then
              strL "\\emph\x7b" ++ t1 ++ strL "\x7d"
            else t1)
          else if in_text = fmt.m_max_text then
            (if fmt.m_max_format = MinMaxFormat.MF_BOLD then
              strL "\\textbf\x7b" ++ t1 ++ strL "\x7d"
            else if fmt.m_max_format = MinMaxFormat.MF_EMPH then
              strL "\\emph\x7b" ++ t1 ++ strL "\x7d"
            else t1)
          else t1)

/-- The format state of a plain `REFORMAT(digits=3)` clause: only the
default format's `m_reformat_digits` is set. -/
def digits3State : ReformatState :=
  ReformatState.mk [] [] { defaultLineFmt with m_reformat_digits := 3 }

example : Reformat.format digits3State 0 0 (strL "0.5") = Except.ok (strL "0.500") := by
  rfl

/-- C7: under REFORMAT `digits=3`, the cell values 0.5, 5, 50 and 500
format to exactly `0.500`, `5.00`, `50.0` and `500`: the precision is
chosen per value — 2 decimals below 10, 1 below 100, 0 at or above 100,
and the sub-1 case gets 3 decimals to keep the significant digits (checked
additionally at 0.25, 9.99, 99 and 100). -/
theorem reformat_digits3_values :
    Reformat.format digits3State 0 0 (strL "0.5") = Except.ok (strL "0.500") ∧
    Reformat.format digits3State 0 0 (strL "5") = Except.ok (strL "5.00") ∧
    Reformat.format digits3State 0 0 (strL "50") = Except.ok (strL "50.0") ∧
    Reformat.format digits3State 0 0 (strL "500") = Except.ok (strL "500") ∧
    Reformat.format digits3State 0 0 (strL "0.25") = Except.ok (strL "0.250") ∧
    Reformat.format digits3State 0 0 (strL "9.99") = Except.ok (strL "9.99") ∧
    Reformat.format digits3State 0 0 (strL "99") = Except.ok (strL "99.0") ∧
    Reformat.format digits3State 0 0 (strL "100") = Except.ok (strL "100") := by
  exact ⟨rfl, rfl, rfl, rfl, rfl, rfl, rfl, rfl⟩

/-- Cached result of one SQL query as the directive processors see it after
`read_complete`: the column names and the rows of nullable text cells. -/
structure DbResult where
  colnames : List Line
  rows : List (List (Option Line))

/-- Cell text of a cached result (`sql->text(row,col)`): NULL cells read as
the empty string (the `SqlDataCache` stores `(true, "")` for NULL). -/
def dbText (res : DbResult) (row col : Nat) : Line :=
  ((res.rows.getD row []).getD col none).getD []

/-- Environment of one LaTeX processing run: the active database (a map
from query text to result, erroring where `g_db->query` would throw), the
`CONNECT` and `IMPORT-DATA` collaborators (out-of-scope externals, passed
as functions), the `gopt_ranges` option, and the string helpers
`str_reduce` (`red`), `escape_latex` (`esc`) and `str_is_double`, which
are declared by the repository outside the given sources and therefore
enter the model as parameters. -/
structure SpEnv where
  db : Line → Except Line DbResult
  connectFn : Line → Bool
  importFn : Line → Except Line Unit
  ranges : List Line
  red : Line → Line
  esc : Line → Line
  strIsDouble : Line → Bool

/-- Embedding of `Reformat::parse_query` from `src/reformat.cpp` for the
queries the claims evaluate: a query that does not start with `REFORMAT`
is returned unchanged with the default format state.  Parsing of a present
`REFORMAT(...)` clause is outside the modelled scope (none of the claims
exercises it) and is reported as an error rather than silently guessed. -/
def parseQuery (query : Line) : Except Line (ReformatState × Line) :=
  if startsWith query (strL "REFORMAT") then
    Except.error (strL "REFORMAT clause parsing not modelled")
  else
    Except.ok (ReformatState.mk [] [] defaultLineFmt, query)

/-- Matcher for the `re_defmacro` regular expression of `SpLatex::defmacro`
(`src/latex.cpp`): `[[:blank:]]*\\def\\[^{]+\{[^}]+\}.*`.  Each piece of
the pattern is determined by its follow character, so the regex is matched
by a single deterministic scan: leading blanks, the literal `\def\`, a
nonempty run of non-brace characters, an opening brace, a nonempty run of
non-closing-brace characters, a closing brace, then anything. -/
def reDefmacroMatch (l : Line) : Bool :=
  let l1 := l.dropWhile isblank
  if startsWith l1 (strL "\\def\\") then
    let l2 := l1.drop 5
    let name := l2.takeWhile (fun c => c ≠ '\x7b')
    let l3 := l2.drop name.length
    if name.length = 0 then false
    else
      match l3 with
      | '\x7b' :: l4 =>
        let body := l4.takeWhile (fun c => c ≠ '\x7d')
        if body.length = 0 then false else (l4.drop body.length).isEmpty = false
      | _ => false
  else false

/-- Length of the initial run of lines matching a predicate (the gobble
loops `while (eln < m_lines.size() && regex_match(m_lines[eln], ...)) ++eln`). -/
def matchRun (pred : Line → Bool) : List Line → Nat
  | [] => 0
  | l :: ls => if pred l then matchRun pred ls + 1 else 0

/-- Sequenced concatenation of fallible text pieces (the `oss <<` loops of
the directive processors, which stop at the first thrown error). -/
def exceptConcat (f : Nat → Except Line Line) : List Nat → Except Line Line
  | [] => Except.ok []
  | i :: is =>
    match f i with
    | Except.error e => Except.error e
    | Except.ok a =>
      match exceptConcat f is with
      | Except.error e => Except.error e
      | Except.ok b => Except.ok (a ++ b)

/-- Embedding of `SpLatex::defmacro` from `src/latex.cpp`: parse off an
optional REFORMAT clause, run the query, emit one `\def\colname{value}`
per column (a newline before every column except the first, the text of
row 0 formatted through the reformat engine, the column name through
`str_reduce`), gobble the run of existing `\def` lines following `ln`, and
replace them with the new output.  (`reformat.prepare` only records
min/max extremal cells, which influence nothing when no min/max style is
configured, as is the case for every state `parseQuery` produces.) -/
def SpLatex.defmacro (env : SpEnv) (lines : List Line) (ln indent : Nat)
    (cmdline : Line) : Except Line (List Line) :=
  match parseQuery cmdline with
  | Except.error e => Except.error e
  | Except.ok (rst, query) =>
    match env.db query with
    | Except.error e => Except.error e
    | Except.ok res =>
      let ncols := res.colnames.length
      let nrows := res.rows.length
      let cell : Nat → Except Line Line := fun i =>
        let col := i % ncols
        match Reformat.format rst 0 col (dbText res 0 col) with
        | Except.error e => Except.error e
        | Except.ok t =>
          Except.ok ((if col ≠ 0 then ['\n'] else []) ++
            strL "\\def\\" ++ env.red (res.colnames.getD col []) ++
            strL "\x7b" ++ t ++ strL "\x7d")
      match exceptConcat cell (List.range (nrows * ncols)) with
      | Except.error e => Except.error e
      | Except.ok output =>
        let eln := ln + matchRun reDefmacroMatch (lines.drop ln)
        Except.ok (TextLines.replaceText lines ln eln indent output)

/-- Left-padding to a column width (`std::setw` with right adjustment). -/
def padLeft (w : Nat) (s : Line) : Line := List.replicate (w - s.length) ' ' ++ s

/-- Right-padding to a column width (`std::setw` with `std::left`). -/
def padRight (w : Nat) (s : Line) : Line := s ++ List.replicate (w - s.length) ' '

/-- Embedding of `SqlQueryImpl::format_texttable` from `src/sql.cpp`:
column width is the maximum of the header width and the widest cell;
a column is numeric when every cell passes `str_is_double` (a parameter,
declared outside the given sources); borders, a right-aligned header row,
and data rows right- or left-aligned by numeric-ness. -/
def formatTexttable (strIsDouble : Line → Bool) (res : DbResult) : List Char :=
  let ncols := res.colnames.length
  let width : Nat → Nat := fun col =>
    res.rows.foldl (fun w row => max w ((row.getD col none).getD []).length)
      (res.colnames.getD col []).length
  let isNum : Nat → Bool := fun col =>
    res.rows.all (fun row => strIsDouble ((row.getD col none).getD []))
  let obreak := strL "+-" ++ ((List.range ncols).map (fun col =>
      (if col ≠ 0 then strL "+-" else []) ++ List.replicate (width col + 1) '-')).flatten ++
    strL "+" ++ ['\n']
  let header := strL "| " ++ ((List.range ncols).map (fun col =>
      (if col ≠ 0 then strL "| " else []) ++
        padLeft (width col) (res.colnames.getD col []) ++ [' '])).flatten ++ ['|', '\n']
  let body := (res.rows.map (fun row =>
      strL "| " ++ ((List.range ncols).map (fun col =>
        (if col ≠ 0 then strL "| " else []) ++
          (if isNum col then padLeft (width col) ((row.getD col none).getD [])
           else padRight (width col) ((row.getD col none).getD [])) ++ [' '])).flatten ++
      ['|', '\n'])).flatten
  obreak ++ header ++ obreak ++ body ++ obreak

/-- TEXTTABLE directive as run by the driver: query, format, splice. -/
def SpLatex.texttableRun (env : SpEnv) (lines : List Line) (ln indent : Nat)
    (cmdline : Line) : Except Line (List Line) :=
  match env.db cmdline with
  | Except.error e => Except.error e
  | Except.ok res =>
    Except.ok (SpLatex.texttable lines ln indent
      (formatTexttable env.strIsDouble res) cmdline)

/-- Collection of aligned multi-line comment continuations
(`TextLines::collect_comment`): lines at the same indentation with a
doubled comment character are appended, each losing its two-character
comment marker; returns the appended text and the number of lines
consumed. -/
def collectMulti (cc : Char) (indent : Nat) : List Line → (Line × Nat)
  | [] => ([], 0)
  | l :: ls =>
    if isCommentLineIdx cc l 2 = some indent then
      let r := collectMulti cc indent ls
      (l.drop (indent + 2) ++ r.1, r.2 + 1)
    else ([], 0)

/-- Embedding of `TextLines::collect_comment` from `src/textlines.h`:
fails (caller advances one line) unless line `ln` is a comment; the text
after the comment character is the command; a doubled comment character
starts a multi-line command that absorbs following aligned doubled-marker
lines; returns the trimmed command, the indentation, and the next line
cursor. -/
def collectComment (cc : Char) (lines : List Line) (ln : Nat) :
    Option (Line × Nat × Nat) :=
  match isCommentLineIdx cc (lines.getD ln []) 1 with
  | none => none
  | some indent =>
    let cmd := (lines.getD ln []).drop (indent + 1)
    if charAt cmd 0 = cc then
      let r := collectMulti cc indent (lines.drop (ln + 1))
      some (trim (cmd.drop 1 ++ r.1), indent, ln + 1 + r.2)
    else
      some (trim cmd, indent, ln + 1)

/-- The keyword character set of the driver
(`find_first_not_of("ABCDEFGHIJKLMNOPQRSTUVWXYZ-_")`). -/
def upperKeywordChars : Line := strL "ABCDEFGHIJKLMNOPQRSTUVWXYZ-_"

/-- The RANGE BEGIN/END handling of `SpLatex::SpLatex` (`src/latex.cpp`
lines 577–616): extract the second word and the rest of the command with
the `find_first_of`/`find_first_not_of`/`substr` sequence of the source
(`substr` at `npos` throws `std::out_of_range`, modelled as an error) and
toggle the active-range flag when the range name is among `gopt_ranges`. -/
def rangeToggle (env : SpEnv) (cmd : Line) (spacePos : Option Nat) (active : Bool) :
    Except Line Bool :=
  let nsp : Option Nat := match spacePos with
    | none => none
    | some p => ((cmd.drop p).findIdx? (fun c => upperKeywordChars.contains c)).map (· + p)
  match nsp with
  | none => Except.error (strL "out_of_range")
  | some q =>
    let s2 : Option Nat :=
      ((cmd.drop q).findIdx? (fun c => ! upperKeywordChars.contains c)).map (· + q)
    let secondWord := match s2 with
      | none => cmd.drop q
      | some r => (cmd.drop q).take (r - q)
    let ns2 : Option Nat := match s2 with
      | none => none
      | some r => ((cmd.drop r).findIdx? (fun c => c ≠ ' ')).map (· + r)
    match ns2 with
    | none => Except.error (strL "out_of_range")
    | some t =>
      let restWord := cmd.drop t
      if secondWord = strL "BEGIN" then
        Except.ok (if restWord ∈ env.ranges then true else active)
      else if secondWord = strL "END" then
        Except.ok (if restWord ∈ env.ranges then false else active)
      else Except.ok active

/-- The scan-and-dispatch loop of `SpLatex::SpLatex` (`src/latex.cpp`
lines 557–675), with explicit fuel (each iteration advances the cursor by
at least one line; exhausted fuel reports an error, and the concrete runs
below stay far below their fuel).  The first keyword word is the maximal
run of `[A-Z-_]` characters; RANGE toggles the active flag; while
inactive, non-RANGE directives are skipped; SQL, CONNECT, IMPORT-DATA,
TEXTTABLE and DEFMACRO are dispatched to their handlers; unknown keywords
are only warned about.  The PLOT, MULTIPLOT, TABULAR and TABTABLE splice
handlers are outside the modelled scope of this driver (their accumulation
logic is modelled separately above); dispatching one of them reports an
error rather than guessing, and no claim is evaluated on a document
containing them. -/
def spLatexLoop (env : SpEnv) : Nat → List Line → Nat → Bool → Except Line (List Line)
  | 0, _, _, _ => Except.error (strL "fuel exhausted")
  | fuel + 1, lines, ln, active =>
    if ln < lines.length then
      match collectComment '%' lines ln with
      | none => spLatexLoop env fuel lines (ln + 1) active
      | some (cmd, indent, ln') =>
        let spacePos := cmd.findIdx? (fun c => ! upperKeywordChars.contains c)
        let firstWord := match spacePos with
          | none => cmd
          | some p => cmd.take p
        let argOf : Line := match spacePos with
          | none => cmd
          | some p => cmd.drop (p + 1)
        if firstWord = strL "RANGE" then
          match rangeToggle env cmd spacePos active with
          | Except.error e => Except.error e
          | Except.ok active2 => spLatexLoop env fuel lines ln' active2
        else if active = false then spLatexLoop env fuel lines ln' active
        else if firstWord = strL "SQL" then
          match env.db argOf with
          | Except.error e => Except.error e
          | Except.ok _ => spLatexLoop env fuel lines ln' active
        else if firstWord = strL "IMPORT-DATA" then
          match env.importFn cmd with
          | Except.error e => Except.error e
          | Except.ok _ => spLatexLoop env fuel lines ln' active
        else if firstWord = strL "CONNECT" then
          if env.connectFn argOf then spLatexLoop env fuel lines ln' active
          else Except.error (strL "Database connection lost.")
        else if firstWord = strL "TEXTTABLE" then
          match SpLatex.texttableRun env lines ln' indent argOf with
          | Except.error e => Except.error e
          | Except.ok lines2 => spLatexLoop env fuel lines2 ln' active
        else if firstWord = strL "PLOT" then
          Except.error (strL "PLOT splice not modelled")
        else if firstWord = strL "MULTIPLOT" then
          Except.error (strL "MULTIPLOT splice not modelled")
        else if firstWord = strL "TABULAR" then
          Except.error (strL "TABULAR splice not modelled")
        else if firstWord = strL "TABTABLE" then
          Except.error (strL "TABTABLE splice not modelled")
        else if firstWord = strL "DEFMACRO" then
          match SpLatex.defmacro env lines ln' indent argOf with
          | Except.error e => Except.error e
          | Except.ok lines2 => spLatexLoop env fuel lines2 ln' active
        else spLatexLoop env fuel lines ln' active
    else Except.ok lines

/-- One whole LaTeX processing pass (`sp_latex` / `SpLatex::SpLatex`): the
active-range flag starts true exactly when no range option was given. -/
def spLatex (env : SpEnv) (fuel : Nat) (lines : List Line) : Except Line (List Line) :=
  spLatexLoop env fuel lines 0 env.ranges.isEmpty

/-- Database state of the idempotence counterexample: the one query of the
document returns a single row with the single column `v` holding the empty
string. -/
def dbC1 : Line → Except Line DbResult := fun q =>
  if q = strL "SELECT '' AS v" then
    Except.ok (DbResult.mk [strL "v"] [[some []]])
  else Except.error (strL "no such query")

/-- Environment of the idempotence counterexample: fixed database state
`dbC1`, no ranges; `str_reduce`/`escape_latex` are the identity on the
plain one-letter names involved. -/
def envC1 : SpEnv :=
  SpEnv.mk dbC1 (fun _ => false) (fun _ => Except.error (strL "no import")) []
    (fun s => s) (fun s => s) (fun _ => true)

/-- The counterexample document: one DEFMACRO directive whose query yields
an empty macro value. -/
def docC1 : List Line := [strL "% DEFMACRO SELECT '' AS v"]

/-- C1: processing is not idempotent.  For the one-directive document
`% DEFMACRO SELECT '' AS v` under the fixed database state `dbC1`, the
first run inserts the macro line `\def\v{}`; the second run fails to
recognize that line as its own output (the `re_defmacro` gobble pattern
requires a nonempty brace body, `[^}]+`) and inserts a second copy instead
of replacing, so `process(process(D))` has one line more than
`process(D)`. -/
theorem spLatex_defmacro_not_idempotent :
    spLatex envC1 32 docC1 =
      Except.ok [strL "% DEFMACRO SELECT '' AS v", strL "\\def\\v\x7b\x7d"] ∧
    spLatex envC1 32 [strL "% DEFMACRO SELECT '' AS v", strL "\\def\\v\x7b\x7d"] =
      Except.ok [strL "% DEFMACRO SELECT '' AS v", strL "\\def\\v\x7b\x7d",
        strL "\\def\\v\x7b\x7d"] ∧
    (spLatex envC1 32 docC1).bind (spLatex envC1 32) ≠ spLatex envC1 32 docC1 := by
  refine ⟨rfl, rfl, ?_⟩
  intro h
  rw [show (spLatex envC1 32 docC1).bind (spLatex envC1 32) =
      Except.ok [strL "% DEFMACRO SELECT '' AS v", strL "\\def\\v\x7b\x7d",
        strL "\\def\\v\x7b\x7d"] from rfl] at h
  rw [show spLatex envC1 32 docC1 =
      Except.ok [strL "% DEFMACRO SELECT '' AS v", strL "\\def\\v\x7b\x7d"] from rfl] at h
  injection h with h2
  exact absurd h2 (by decide)
